import Mathlib

/-!
A shallow embedding of the envy package (envy.go): an environment-variable
overlay for pflag-style flag sets.  Flags are modelled as records, a flag set
as a list of flags, the process environment as an association list, and the
panicking Go functions as functions returning the (possibly partially
mutated) flag set together with an optional error.

String handling mirrors the Go source: strings.ToUpper is modelled by ASCII
character uppercasing (all strings in this development are ASCII, where the
Unicode uppercasing of Go agrees), strings.ReplaceAll(s, "-", "_") by a
character map, and strings.TrimSuffix(s, "_") by removal of a single trailing
underscore.
-/

namespace Envy

/-- The annotation key used to disable envy for a flag (constant envyDisable
in envy.go). -/
def envyDisable : String := "envy_disable"

/-- The annotation key holding a custom environment-variable name (constant
envyCustom in envy.go). -/
def envyCustom : String := "envy_custom"

/-- The three error values declared in envy.go: ErrFlagNotExists,
ErrCustomAlreadyDefined and ErrInvalidBoolFlagValue.  In Go they are raised
with panic; here they are returned. -/
inductive Err where
  | flagNotExists
  | customAlreadyDefined
  | invalidBoolFlagValue
deriving DecidableEq, Repr

/-- Models strings.ToUpper for ASCII strings: uppercase every character.
Char.toUpper performs exactly the ASCII case mapping. -/
def goToUpper (s : String) : String := ⟨s.data.map Char.toUpper⟩

/-- Models strings.ReplaceAll(s, "-", "_"): replace every dash character with
an underscore. -/
def goDashToUnderscore (s : String) : String :=
  ⟨s.data.map (fun c => if c = '-' then '_' else c)⟩

/-- Models strings.TrimSuffix(s, "_"): if s ends with an underscore, remove
that one trailing underscore; otherwise return s unchanged.  (The TrimSuffix
function of Go removes at most one copy of the suffix.) -/
def goTrimUnderscoreSuffix (s : String) : String :=
  if s.data.getLast? = some '_' then ⟨s.data.dropLast⟩ else s

/-- The pfx transformation at the top of ParseFlagSet (envy.go lines 44-46):
a non-empty pfx is uppercased, one trailing underscore is trimmed, and a
single underscore is appended; an empty pfx is left empty. -/
def normalizePfx (pfx : String) : String :=
  if pfx = "" then "" else goTrimUnderscoreSuffix (goToUpper pfx) ++ "_"

/-- Modelled from the spec: the boolean grammar of the external library.  The
spec delegates boolean validation to strconv.ParseBool, which accepts exactly
the literals 1, t, T, TRUE, true, True, 0, f, F, FALSE, false, False. -/
def parseBoolOk (s : String) : Bool :=
  ["1", "t", "T", "TRUE", "true", "True",
   "0", "f", "F", "FALSE", "false", "False"].contains s

/-- Modelled from the spec: decimal integer literals accepted by the numeric
value setter of the external library (an optional sign followed by one or
more digits). -/
def isGoInt (s : String) : Bool :=
  let ds := match s.data with
    | '-' :: rest => rest
    | '+' :: rest => rest
    | l => l
  !ds.isEmpty && ds.all Char.isDigit

/-- Modelled from the spec: the type-specific value setter of the external
flag library, "a type-specific value setter that parses a string and either
succeeds or reports malformed input".  Returns true when setting the given
raw string on a value of the given type tag succeeds.  Boolean values follow
the boolean grammar, numeric values the decimal-integer grammar; string-like
types accept every raw value. -/
def setOkFor (typeTag v : String) : Bool :=
  match typeTag with
  | "bool" => parseBoolOk v
  | "int" => isGoInt v
  | _ => true

/-- One pflag.Flag, restricted to the fields envy reads or writes: Name,
Value (kept as its raw string together with the Type tag), Usage, and
Annotations (field anns, an association list from annotation key to recorded
values). -/
structure Flag where
  name : String
  value : String
  usage : String
  typeTag : String
  anns : List (String × List String)
deriving DecidableEq, Repr

/-- The process environment (os.LookupEnv), modelled as an association
list. -/
def lookupEnv (env : List (String × String)) (n : String) : Option String :=
  env.lookup n

/-- The environment-variable name derivation inside the VisitAll callback of
ParseFlagSet (envy.go lines 56-63): the first recorded envyCustom annotation
value when present, otherwise the normalized pfx followed by the uppercased
flag name with dashes replaced by underscores. -/
def envNameOf (pfx : String) (f : Flag) : String :=
  match f.anns.lookup envyCustom with
  | some val => val.headD ""
  | none => pfx ++ goDashToUnderscore (goToUpper f.name)

/-- The body of the VisitAll callback of ParseFlagSet (envy.go lines 48-85)
for a single flag, with pfx already normalized.  A flag with an envyDisable
annotation is returned unchanged.  Otherwise the environment variable named
by envNameOf is looked up; if absent only the usage string is extended, if
present the value of a boolean flag must satisfy the boolean grammar
(otherwise the Go code panics with ErrInvalidBoolFlagValue), the value setter
is invoked with its error discarded, and the usage string is extended with
the name and raw value. -/
def resolveFlag (env : List (String × String)) (pfx : String) (f : Flag) :
    Except Err Flag :=
  if (f.anns.lookup envyDisable).isSome then
    .ok f
  else
    let envName := envNameOf pfx f
    match lookupEnv env envName with
    | none => .ok { f with usage := f.usage ++ " [" ++ envName ++ "]" }
    | some v =>
      if f.typeTag = "bool" && !parseBoolOk v then
        .error .invalidBoolFlagValue
      else
        .ok { f with
          value := if setOkFor f.typeTag v then v else f.value,
          usage := f.usage ++ " [" ++ (envName ++ " " ++ v) ++ "]" }

/-- The VisitAll loop of ParseFlagSet over the whole flag set, with pfx
already normalized.  Returns the mutated flag set together with an optional
error: a panic aborts the loop, leaving the failing flag and every later flag
unchanged while keeping the mutations already applied to earlier flags. -/
def parseFlags (env : List (String × String)) (pfx : String) :
    List Flag → List Flag × Option Err
  | [] => ([], none)
  | f :: rest =>
    match resolveFlag env pfx f with
    | .error e => (f :: rest, some e)
    | .ok f' =>
      let r := parseFlags env pfx rest
      (f' :: r.1, r.2)

/-- ParseFlagSet (envy.go lines 40-86): normalize the pfx, then visit every
flag.  Parse(pfx) is ParseFlagSet on the global pflag.CommandLine and adds
nothing. -/
def parseFlagSet (env : List (String × String)) (pfx : String)
    (fs : List Flag) : List Flag × Option Err :=
  parseFlags env (normalizePfx pfx) fs

/-- The Lookup method of pflag.FlagSet: find the flag with the given name
(flag names are unique within a set). -/
def lookupFlag (name : String) (fs : List Flag) : Option Flag :=
  fs.find? (fun f => f.name = name)

/-- Apply g to the first flag with the given name, mirroring mutation through
the pointer returned by Lookup. -/
def updateFlag (name : String) (g : Flag → Flag) : List Flag → List Flag
  | [] => []
  | f :: rest =>
    if f.name = name then g f :: rest else f :: updateFlag name g rest

/-- Store a binding in an annotation map, overwriting an existing binding for
the same key (Go map assignment; lazy map creation collapses away in the
association-list model). -/
def setAnn (key : String) (v : List String) :
    List (String × List String) → List (String × List String)
  | [] => [(key, v)]
  | (k, w) :: rest =>
    if k = key then (key, v) :: rest else (k, w) :: setAnn key v rest

/-- DisableOnFlagSet (envy.go lines 96-105): look the flag up by name, panic
with ErrFlagNotExists when absent, otherwise set the envyDisable annotation
to the singleton list containing "true".  Disable(name) is this on the global
set. -/
def disableOnFlagSet (name : String) (fs : List Flag) :
    List Flag × Option Err :=
  match lookupFlag name fs with
  | none => (fs, some .flagNotExists)
  | some _ =>
    (updateFlag name
      (fun f => { f with anns := setAnn envyDisable ["true"] f.anns }) fs,
     none)

/-- SetEnvNameOnFlagSet (envy.go lines 115-129): look the flag up by name,
panic with ErrFlagNotExists when absent, panic with ErrCustomAlreadyDefined
when an envyCustom annotation is already present, otherwise store the
uppercased envName (dashes replaced by underscores) as the single envyCustom
annotation value.  SetEnvName is this on the global set. -/
def setEnvNameOnFlagSet (name envName : String) (fs : List Flag) :
    List Flag × Option Err :=
  match lookupFlag name fs with
  | none => (fs, some .flagNotExists)
  | some f =>
    if (f.anns.lookup envyCustom).isSome then
      (fs, some .customAlreadyDefined)
    else
      (updateFlag name
        (fun g => { g with
          anns := setAnn envyCustom
            [goToUpper (goDashToUnderscore envName)] g.anns }) fs,
       none)

/-! Concrete flags used as test fixtures, taken from the test table in
envy_test.go and the example program. -/

/-- The boolean verbose flag from the test table. -/
def flagVerbose : Flag :=
  { name := "verbose", value := "false", usage := "verbose usage",
    typeTag := "bool", anns := [] }

/-- The string url flag from the test table. -/
def flagUrl : Flag :=
  { name := "url", value := "", usage := "url usage",
    typeTag := "string", anns := [] }

/-- A minimal string flag used in counterexamples. -/
def flagX : Flag :=
  { name := "x", value := "d", usage := "u", typeTag := "string", anns := [] }

/-- An integer flag as declared by the example program (IntVar count). -/
def flagCount : Flag :=
  { name := "count", value := "13", usage := "u", typeTag := "int",
    anns := [] }

/-- The verbose flag after Disable, as in the disabled-flag test case. -/
def flagVerboseDisabled : Flag :=
  { flagVerbose with anns := [(envyDisable, ["true"])] }

/-- The kube-config flag from the custom-flag test case, before
SetEnvName. -/
def flagKube0 : Flag :=
  { name := "kube-config", value := "~/.kube/config",
    usage := "set the kube config", typeTag := "string", anns := [] }

/-- The kube-config flag after SetEnvName("kube-config", "KUBECONFIG"). -/
def flagKube : Flag :=
  { flagKube0 with anns := [(envyCustom, ["KUBECONFIG"])] }

/-- The flag set produced by one successful SetEnvName call on the
kube-config flag. -/
def fsKubeOnce : List Flag :=
  (setEnvNameOnFlagSet "kube-config" "KUBECONFIG" [flagKube0]).1

/-! Helper lemmas about the resolution pass. -/

/-- parseFlags on a cons unfolds by cases on the resolution of the head. -/
theorem parseFlags_cons (env : List (String × String)) (pfx : String)
    (f : Flag) (rest : List Flag) :
    parseFlags env pfx (f :: rest) =
      match resolveFlag env pfx f with
      | .error e => (f :: rest, some e)
      | .ok f' =>
        (f' :: (parseFlags env pfx rest).1, (parseFlags env pfx rest).2) :=
  rfl

/-- The only error the resolution pass can raise is
ErrInvalidBoolFlagValue. -/
theorem resolveFlag_error_eq (env : List (String × String)) (pfx : String)
    (f : Flag) (e : Err) (h : resolveFlag env pfx f = .error e) :
    e = .invalidBoolFlagValue := by
  simp only [resolveFlag] at h
  split at h
  · exact absurd h (by simp)
  · split at h
    · exact absurd h (by simp)
    · split at h
      · exact (Except.error.inj h).symm
      · exact absurd h (by simp)

/-- A flag carrying the envyDisable annotation is returned untouched. -/
theorem resolveFlag_disabled (env : List (String × String)) (pfx : String)
    (f : Flag) (h : (f.anns.lookup envyDisable).isSome = true) :
    resolveFlag env pfx f = .ok f := by
  simp [resolveFlag, h]

/-- A non-disabled boolean flag whose environment value fails the boolean
grammar makes the resolution of that flag fail. -/
theorem resolveFlag_bool_error (env : List (String × String)) (pfx : String)
    (f : Flag) (v : String)
    (hd : (f.anns.lookup envyDisable).isSome = false)
    (hb : f.typeTag = "bool")
    (he : lookupEnv env (envNameOf pfx f) = some v)
    (hv : parseBoolOk v = false) :
    resolveFlag env pfx f = .error .invalidBoolFlagValue := by
  simp [resolveFlag, hd, he, hb, hv]

/-- An unannotated flag whose derived environment variable is unset only has
its usage string extended with the variable name. -/
theorem resolveFlag_env_unset (env : List (String × String)) (pfx : String)
    (f : Flag) (ha : f.anns = [])
    (he : lookupEnv env (pfx ++ goDashToUnderscore (goToUpper f.name)) =
      none) :
    resolveFlag env pfx f =
      .ok { f with usage := f.usage ++ " [" ++
        (pfx ++ goDashToUnderscore (goToUpper f.name)) ++ "]" } := by
  simp [resolveFlag, envNameOf, ha, he]

/-- An unannotated flag whose derived environment variable is set (and, for a
boolean flag, passes the boolean grammar) has its usage string extended with
the name and raw value, and its value replaced exactly when the setter
accepts the raw value. -/
theorem resolveFlag_env_set (env : List (String × String)) (pfx : String)
    (f : Flag) (v : String) (ha : f.anns = [])
    (he : lookupEnv env (pfx ++ goDashToUnderscore (goToUpper f.name)) =
      some v)
    (hv : f.typeTag = "bool" → parseBoolOk v = true) :
    resolveFlag env pfx f =
      .ok { f with
        value := if setOkFor f.typeTag v then v else f.value,
        usage := f.usage ++ " [" ++
          ((pfx ++ goDashToUnderscore (goToUpper f.name)) ++ " " ++ v) ++
          "]" } := by
  by_cases hb : f.typeTag = "bool"
  · simp [resolveFlag, envNameOf, ha, he, hb, hv hb]
  · simp [resolveFlag, envNameOf, ha, he, hb]

/-- Every flag of the input is found in the output at its own position,
either unchanged or as the result of its own resolution. -/
theorem parseFlags_get?_cases (env : List (String × String)) (pfx : String)
    (fs : List Flag) :
    ∀ (i : Nat) (f : Flag), fs.get? i = some f →
      (parseFlags env pfx fs).1.get? i = some f ∨
      ∃ f', resolveFlag env pfx f = .ok f' ∧
        (parseFlags env pfx fs).1.get? i = some f' := by
  induction fs with
  | nil => intro i f h; simp at h
  | cons g rest ih =>
    intro i f h
    rw [parseFlags_cons]
    cases hr : resolveFlag env pfx g with
    | error e => exact Or.inl h
    | ok g' =>
      cases i with
      | zero =>
        rw [List.get?_cons_zero] at h
        obtain rfl : g = f := Option.some.inj h
        exact Or.inr ⟨g', hr, rfl⟩
      | succ i =>
        rw [List.get?_cons_succ] at h
        rcases ih i f h with h' | ⟨f', hr', h'⟩
        · exact Or.inl (by simpa using h')
        · exact Or.inr ⟨f', hr', by simpa using h'⟩

/-- If every flag before position i resolves without error and the flag at
position i resolves to f', then the output carries f' at position i. -/
theorem parseFlags_get?_resolved (env : List (String × String))
    (pfx : String) (fs : List Flag) :
    ∀ (i : Nat) (f f' : Flag), fs.get? i = some f →
      (parseFlags env pfx (fs.take i)).2 = none →
      resolveFlag env pfx f = .ok f' →
      (parseFlags env pfx fs).1.get? i = some f' := by
  induction fs with
  | nil => intro i f f' h _ _; simp at h
  | cons g rest ih =>
    intro i f f' h hpre hres
    cases i with
    | zero =>
      rw [List.get?_cons_zero] at h
      obtain rfl : g = f := Option.some.inj h
      rw [parseFlags_cons, hres]
      simp
    | succ i =>
      rw [List.get?_cons_succ] at h
      rw [List.take_succ_cons, parseFlags_cons] at hpre
      rw [parseFlags_cons]
      cases hr : resolveFlag env pfx g with
      | error e => rw [hr] at hpre; simp at hpre
      | ok g' =>
        rw [hr] at hpre
        simp only at hpre
        simpa using ih i f f' h hpre hres

/-- A failing pass splits the flag set at the failing flag: flags before it
are resolved, the failing flag and all later flags are returned verbatim. -/
theorem parseFlags_error_split (env : List (String × String)) (pfx : String)
    (fs : List Flag) :
    ∀ (out : List Flag) (e : Err), parseFlags env pfx fs = (out, some e) →
      ∃ pre f suf pre', fs = pre ++ f :: suf ∧ out = pre' ++ f :: suf ∧
        resolveFlag env pfx f = .error e ∧
        parseFlags env pfx pre = (pre', none) := by
  induction fs with
  | nil => intro out e h; simp [parseFlags] at h
  | cons g rest ih =>
    intro out e h
    rw [parseFlags_cons] at h
    cases hr : resolveFlag env pfx g with
    | error e' =>
      rw [hr] at h
      simp only [Prod.mk.injEq, Option.some.injEq] at h
      obtain ⟨h1, h2⟩ := h
      subst h1; subst h2
      exact ⟨[], g, rest, [], rfl, rfl, hr, rfl⟩
    | ok g' =>
      rw [hr] at h
      simp only [Prod.mk.injEq] at h
      obtain ⟨h1, h2⟩ := h
      have hrest : parseFlags env pfx rest =
          ((parseFlags env pfx rest).1, some e) := by
        rw [← h2]
      obtain ⟨pre, f, suf, pre', hfs, hout, herr, hpre⟩ :=
        ih (parseFlags env pfx rest).1 e hrest
      refine ⟨g :: pre, f, suf, g' :: pre', ?_, ?_, herr, ?_⟩
      · rw [hfs]; rfl
      · rw [← h1, hout]; rfl
      · rw [parseFlags_cons, hr, hpre]

/-- A boolean flag with an invalid environment value fails the whole pass,
wherever it sits in the flag set. -/
theorem parseFlags_mem_bool_error (env : List (String × String))
    (pfx : String) (f : Flag) (v : String)
    (hd : (f.anns.lookup envyDisable).isSome = false)
    (hb : f.typeTag = "bool")
    (he : lookupEnv env (envNameOf pfx f) = some v)
    (hv : parseBoolOk v = false) :
    ∀ fs : List Flag, f ∈ fs →
      (parseFlags env pfx fs).2 = some .invalidBoolFlagValue := by
  intro fs
  induction fs with
  | nil => intro h; simp at h
  | cons g rest ih =>
    intro hmem
    rw [parseFlags_cons]
    cases hr : resolveFlag env pfx g with
    | error e =>
      have h := resolveFlag_error_eq env pfx g e hr
      subst h
      rfl
    | ok g' =>
      rcases List.mem_cons.mp hmem with h | h
      · subst h
        rw [resolveFlag_bool_error env pfx f v hd hb he hv] at hr
        exact absurd hr (by simp)
      · exact ih h

/-! The claims. -/

/-- C1 (amended): for every flag with no annotations and no matching
environment variable set, Resolve extends the usage string to
"(usage) [(DERIVED)]" where DERIVED is the normalized pfx (uppercased, at
most one trailing underscore removed, then one underscore appended; empty
when the pfx is empty) followed by the uppercased flag name with dashes
replaced by underscores; the value field is untouched.  The take-hypothesis
states that the pass reaches the flag, i.e. no earlier flag panicked. -/
theorem c1_unset_env_usage (env : List (String × String)) (pfx : String)
    (fs : List Flag) (i : Nat) (f : Flag)
    (hget : fs.get? i = some f) (ha : f.anns = [])
    (he : lookupEnv env
      (normalizePfx pfx ++ goDashToUnderscore (goToUpper f.name)) = none)
    (hpre : (parseFlags env (normalizePfx pfx) (fs.take i)).2 = none) :
    (parseFlagSet env pfx fs).1.get? i =
      some { f with usage := f.usage ++ " [" ++
        (normalizePfx pfx ++ goDashToUnderscore (goToUpper f.name)) ++
        "]" } :=
  parseFlags_get?_resolved env (normalizePfx pfx) fs i f _ hget hpre
    (resolveFlag_env_unset env (normalizePfx pfx) f ha he)

/-- C1 counterexample: with pfx "a_" and flag name "x", the code derives the
environment name A_X (the trailing underscore of the pfx is trimmed before
the separator is appended), while the claim as stated predicts
uppercase("a_") followed by an underscore and the flag name, i.e. A__X. -/
theorem c1_counterexample :
    (parseFlagSet [] "a_" [flagX]).1.map Flag.usage = ["u [A_X]"] ∧
    ("u [A_X]" : String) ≠
      "u" ++ " [" ++
        (goToUpper "a_" ++ "_" ++ goDashToUnderscore (goToUpper "x")) ++
        "]" := by
  decide

/-- C1 witness: the empty environment on the verbose flag with pfx FOO. -/
theorem c1_witness :
    ([flagVerbose].get? 0 = some flagVerbose) ∧
    flagVerbose.anns = [] ∧
    lookupEnv []
      (normalizePfx "FOO" ++ goDashToUnderscore (goToUpper flagVerbose.name))
      = none ∧
    (parseFlags [] (normalizePfx "FOO") ([flagVerbose].take 0)).2 = none ∧
    (parseFlagSet [] "FOO" [flagVerbose]).1.get? 0 =
      some { flagVerbose with usage := flagVerbose.usage ++ " [" ++
        (normalizePfx "FOO" ++
          goDashToUnderscore (goToUpper flagVerbose.name)) ++ "]" } :=
  ⟨by decide, by decide, by decide, by decide,
    c1_unset_env_usage [] "FOO" [flagVerbose] 0 flagVerbose (by decide)
      (by decide) (by decide) (by decide)⟩

/-- C2 (amended): for every flag with no annotations whose derived
environment variable is set to v (boolean flags validated), Resolve sets the
usage string to exactly "(original usage) [(envName) (v)]"; the value is
overwritten with v exactly when the value setter of the flag accepts v
(boolean flags always do after validation), and left unchanged when the
setter rejects v. -/
theorem c2_set_env_usage_value (env : List (String × String)) (pfx : String)
    (fs : List Flag) (i : Nat) (f : Flag) (v : String)
    (hget : fs.get? i = some f) (ha : f.anns = [])
    (he : lookupEnv env
      (normalizePfx pfx ++ goDashToUnderscore (goToUpper f.name)) = some v)
    (hbool : f.typeTag = "bool" → parseBoolOk v = true)
    (hpre : (parseFlags env (normalizePfx pfx) (fs.take i)).2 = none) :
    (parseFlagSet env pfx fs).1.get? i =
      some { f with
        value := if setOkFor f.typeTag v then v else f.value,
        usage := f.usage ++ " [" ++
          ((normalizePfx pfx ++ goDashToUnderscore (goToUpper f.name)) ++
            " " ++ v) ++ "]" } :=
  parseFlags_get?_resolved env (normalizePfx pfx) fs i f _ hget hpre
    (resolveFlag_env_set env (normalizePfx pfx) f v ha he hbool)

/-- C2 counterexample: an integer flag with default 13 and environment value
"abc" keeps its default value (the setter error is discarded) even though the
usage string is annotated with the raw value, so the value is not overwritten
with v as the claim states. -/
theorem c2_counterexample :
    (parseFlagSet [("COUNT", "abc")] "" [flagCount]).1.map Flag.value =
      ["13"] ∧
    (parseFlagSet [("COUNT", "abc")] "" [flagCount]).1.map Flag.usage =
      ["u [COUNT abc]"] ∧
    ("13" : String) ≠ "abc" := by
  decide

/-- C2 witness: FOO_VERBOSE=true on the boolean verbose flag. -/
theorem c2_witness :
    ([flagVerbose].get? 0 = some flagVerbose) ∧
    flagVerbose.anns = [] ∧
    lookupEnv [("FOO_VERBOSE", "true")]
      (normalizePfx "FOO" ++ goDashToUnderscore (goToUpper flagVerbose.name))
      = some "true" ∧
    (flagVerbose.typeTag = "bool" → parseBoolOk "true" = true) ∧
    (parseFlags [("FOO_VERBOSE", "true")] (normalizePfx "FOO")
      ([flagVerbose].take 0)).2 = none ∧
    (parseFlagSet [("FOO_VERBOSE", "true")] "FOO" [flagVerbose]).1.get? 0 =
      some { flagVerbose with
        value := if setOkFor flagVerbose.typeTag "true" then "true"
          else flagVerbose.value,
        usage := flagVerbose.usage ++ " [" ++
          ((normalizePfx "FOO" ++
            goDashToUnderscore (goToUpper flagVerbose.name)) ++ " " ++
            "true") ++ "]" } :=
  ⟨by decide, by decide, by decide, by decide, by decide,
    c2_set_env_usage_value [("FOO_VERBOSE", "true")] "FOO" [flagVerbose] 0
      flagVerbose "true" (by decide) (by decide) (by decide) (by decide)
      (by decide)⟩

/-- C3: a non-disabled boolean flag whose derived environment variable holds
a string rejected by the boolean grammar makes the whole Resolve pass fail
with ErrInvalidBoolFlagValue; the flag is not silently skipped. -/
theorem c3_invalid_bool_env_fails (env : List (String × String))
    (pfx : String) (fs : List Flag) (f : Flag) (v : String)
    (hmem : f ∈ fs)
    (hd : (f.anns.lookup envyDisable).isSome = false)
    (hb : f.typeTag = "bool")
    (he : lookupEnv env (envNameOf (normalizePfx pfx) f) = some v)
    (hv : parseBoolOk v = false) :
    (parseFlagSet env pfx fs).2 = some .invalidBoolFlagValue :=
  parseFlags_mem_bool_error env (normalizePfx pfx) f v hd hb he hv fs hmem

/-- C3 witness: FOO_VERBOSE=yay on the boolean verbose flag, as in the
invalid-bool test case. -/
theorem c3_witness :
    flagVerbose ∈ [flagVerbose] ∧
    (flagVerbose.anns.lookup envyDisable).isSome = false ∧
    flagVerbose.typeTag = "bool" ∧
    lookupEnv [("FOO_VERBOSE", "yay")]
      (envNameOf (normalizePfx "FOO") flagVerbose) = some "yay" ∧
    parseBoolOk "yay" = false ∧
    (parseFlagSet [("FOO_VERBOSE", "yay")] "FOO" [flagVerbose]).2 =
      some .invalidBoolFlagValue :=
  ⟨by decide, by decide, by decide, by decide, by decide,
    c3_invalid_bool_env_fails [("FOO_VERBOSE", "yay")] "FOO" [flagVerbose]
      flagVerbose "yay" (by decide) (by decide) (by decide) (by decide)
      (by decide)⟩

/-- C4 (amended): a non-empty pfx is normalized by uppercasing, removing at
most one trailing underscore, and appending exactly one underscore; so a pfx
already ending in a single underscore normalizes like the same pfx without
it, foo_, FOO and foo all normalize to FOO_ and derive identical environment
names, the empty pfx yields no segment and no separator, and foo__ keeps its
extra underscore. -/
theorem c4_pfx_normalization :
    (∀ p : String, p ≠ "" → (goToUpper p).data.getLast? ≠ some '_' →
      normalizePfx (p ++ "_") = normalizePfx p) ∧
    normalizePfx "foo_" = "FOO_" ∧ normalizePfx "FOO" = "FOO_" ∧
    normalizePfx "foo" = "FOO_" ∧ normalizePfx "" = "" ∧
    normalizePfx "foo__" = "FOO__" ∧
    (∀ f : Flag, envNameOf (normalizePfx "foo_") f =
      envNameOf (normalizePfx "FOO") f) := by
  refine ⟨?_, by decide, by decide, by decide, by decide, by decide, ?_⟩
  · intro p hp hlast
    have hne : p ++ "_" ≠ "" := by
      intro h
      have h2 : p.data ++ ['_'] = ([] : List Char) := congrArg String.data h
      simp at h2
    have hdata : (goToUpper (p ++ "_")).data =
        (goToUpper p).data ++ ['_'] := by
      show (p ++ "_").data.map Char.toUpper = p.data.map Char.toUpper ++ ['_']
      rw [String.data_append, List.map_append]
      rfl
    have hlast2 : (goToUpper (p ++ "_")).data.getLast? = some '_' := by
      rw [hdata]; exact List.getLast?_concat _
    unfold normalizePfx
    rw [if_neg hne, if_neg hp]
    unfold goTrimUnderscoreSuffix
    rw [if_pos hlast2, if_neg hlast, hdata, List.dropLast_concat]
  · intro f
    rw [show normalizePfx "foo_" = normalizePfx "FOO" from by decide]

/-- C4 counterexample: the pfx foo__ normalizes to FOO__ (TrimSuffix removes
only one trailing underscore), not to the FOO_ that stripping all trailing
underscores would produce, so foo__ and foo derive different environment
names. -/
theorem c4_counterexample :
    (parseFlagSet [] "foo__" [flagX]).1.map Flag.usage = ["u [FOO__X]"] ∧
    normalizePfx "foo__" = "FOO__" ∧
    normalizePfx "foo" = "FOO_" ∧
    ("FOO__" : String) ≠ "FOO_" := by
  decide

/-- C4 witness: the pfx AB with and without a trailing underscore. -/
theorem c4_witness :
    ("AB" : String) ≠ "" ∧
    (goToUpper "AB").data.getLast? ≠ some '_' ∧
    normalizePfx ("AB" ++ "_") = normalizePfx "AB" :=
  ⟨by decide, by decide, c4_pfx_normalization.1 "AB" (by decide) (by decide)⟩

/-- C5: a flag carrying the envyDisable annotation (whatever its recorded
value) is returned at its position completely unchanged by Resolve, even when
a matching environment variable is set: usage and value are untouched. -/
theorem c5_disabled_flag_unchanged (env : List (String × String))
    (pfx : String) (fs : List Flag) (i : Nat) (f : Flag)
    (hget : fs.get? i = some f)
    (hd : (f.anns.lookup envyDisable).isSome = true) :
    (parseFlagSet env pfx fs).1.get? i = some f := by
  rcases parseFlags_get?_cases env (normalizePfx pfx) fs i f hget with
    h | ⟨f', hr, h⟩
  · exact h
  · rw [resolveFlag_disabled env (normalizePfx pfx) f hd] at hr
    obtain rfl : f = f' := Except.ok.inj hr
    exact h

/-- C5 witness: the disabled verbose flag with FOO_VERBOSE=true set, as in
the disabled-flag test case. -/
theorem c5_witness :
    ([flagVerboseDisabled].get? 0 = some flagVerboseDisabled) ∧
    (flagVerboseDisabled.anns.lookup envyDisable).isSome = true ∧
    (parseFlagSet [("FOO_VERBOSE", "true")] "FOO"
      [flagVerboseDisabled]).1.get? 0 = some flagVerboseDisabled :=
  ⟨by decide, by decide,
    c5_disabled_flag_unchanged [("FOO_VERBOSE", "true")] "FOO"
      [flagVerboseDisabled] 0 flagVerboseDisabled (by decide) (by decide)⟩

/-- C6: for a non-disabled flag carrying an envyCustom annotation, the
environment name is the first recorded annotation value verbatim, and the
per-flag resolution is entirely independent of the pfx argument. -/
theorem c6_custom_name_ignores_pfx (env : List (String × String))
    (pfx1 pfx2 : String) (f : Flag) (e : String) (t : List String)
    (hd : (f.anns.lookup envyDisable).isSome = false)
    (hc : f.anns.lookup envyCustom = some (e :: t)) :
    envNameOf pfx1 f = e ∧
    resolveFlag env pfx1 f = resolveFlag env pfx2 f := by
  have hn : ∀ p : String, envNameOf p f = e := by
    intro p; simp [envNameOf, hc]
  exact ⟨hn pfx1, by simp [resolveFlag, hd, hn]⟩

/-- C6 witness: the kube-config flag with custom name KUBECONFIG looks up
exactly KUBECONFIG whether the pfx is BAR_ or empty. -/
theorem c6_witness :
    (flagKube.anns.lookup envyDisable).isSome = false ∧
    flagKube.anns.lookup envyCustom = some ("KUBECONFIG" :: []) ∧
    (envNameOf "BAR_" flagKube = "KUBECONFIG" ∧
      resolveFlag [("KUBECONFIG", "~/.kube/config.ops")] "BAR_" flagKube =
        resolveFlag [("KUBECONFIG", "~/.kube/config.ops")] "" flagKube) :=
  ⟨by decide, by decide,
    c6_custom_name_ignores_pfx [("KUBECONFIG", "~/.kube/config.ops")] "BAR_"
      "" flagKube "KUBECONFIG" [] (by decide) (by decide)⟩

/-- C7: SetEnvName on a flag that already carries an envyCustom annotation
fails with ErrCustomAlreadyDefined and leaves the flag set unchanged,
whatever the new envName argument is, identical arguments included. -/
theorem c7_duplicate_custom_name_fails (name envName : String)
    (fs : List Flag) (f : Flag)
    (hl : lookupFlag name fs = some f)
    (hc : (f.anns.lookup envyCustom).isSome = true) :
    setEnvNameOnFlagSet name envName fs =
      (fs, some .customAlreadyDefined) := by
  simp [setEnvNameOnFlagSet, hl, hc]

/-- C7 witness: after one successful SetEnvName("kube-config", "KUBECONFIG")
the identical second call fails, as in the duplicate-set test case. -/
theorem c7_witness :
    lookupFlag "kube-config" fsKubeOnce = some flagKube ∧
    (flagKube.anns.lookup envyCustom).isSome = true ∧
    setEnvNameOnFlagSet "kube-config" "KUBECONFIG" fsKubeOnce =
      (fsKubeOnce, some .customAlreadyDefined) :=
  ⟨by decide, by decide,
    c7_duplicate_custom_name_fails "kube-config" "KUBECONFIG" fsKubeOnce
      flagKube (by decide) (by decide)⟩

/-- C8: Disable and SetEnvName on a name absent from the flag set both fail
with ErrFlagNotExists and return the flag set unchanged. -/
theorem c8_missing_flag_fails (name envName : String) (fs : List Flag)
    (h : lookupFlag name fs = none) :
    disableOnFlagSet name fs = (fs, some .flagNotExists) ∧
    setEnvNameOnFlagSet name envName fs = (fs, some .flagNotExists) :=
  ⟨by simp [disableOnFlagSet, h], by simp [setEnvNameOnFlagSet, h]⟩

/-- C8 witness: the name foo is absent from a set holding only the verbose
flag, as in the nonexistent-flag test cases. -/
theorem c8_witness :
    lookupFlag "foo" [flagVerbose] = none ∧
    (disableOnFlagSet "foo" [flagVerbose] =
      ([flagVerbose], some .flagNotExists) ∧
    setEnvNameOnFlagSet "foo" "bar" [flagVerbose] =
      ([flagVerbose], some .flagNotExists)) :=
  ⟨by decide, c8_missing_flag_fails "foo" "bar" [flagVerbose] (by decide)⟩

/-- C9: when Resolve fails, the flag set splits at the failing flag: the
failing flag itself and every later flag appear in the output verbatim
(value and usage untouched), only the flags before it carry the mutations of
their own successful resolution, and the failing flag is exactly the one
whose resolution raises the error. -/
theorem c9_failure_leaves_suffix_unchanged (env : List (String × String))
    (pfx : String) (fs out : List Flag) (e : Err)
    (h : parseFlagSet env pfx fs = (out, some e)) :
    ∃ pre f suf pre', fs = pre ++ f :: suf ∧ out = pre' ++ f :: suf ∧
      resolveFlag env (normalizePfx pfx) f = .error e ∧
      parseFlags env (normalizePfx pfx) pre = (pre', none) :=
  parseFlags_error_split env (normalizePfx pfx) fs out e h

/-- C9 witness: the url flag resolves first, then the verbose flag fails on
FOO_VERBOSE=yay; the url flag keeps its mutation, the verbose flag is
untouched. -/
theorem c9_witness :
    parseFlagSet [("FOO_VERBOSE", "yay")] "FOO" [flagUrl, flagVerbose] =
      ([{ flagUrl with usage := "url usage [FOO_URL]" }, flagVerbose],
        some .invalidBoolFlagValue) ∧
    (∃ pre f suf pre', [flagUrl, flagVerbose] = pre ++ f :: suf ∧
      [{ flagUrl with usage := "url usage [FOO_URL]" }, flagVerbose] =
        pre' ++ f :: suf ∧
      resolveFlag [("FOO_VERBOSE", "yay")] (normalizePfx "FOO") f =
        .error .invalidBoolFlagValue ∧
      parseFlags [("FOO_VERBOSE", "yay")] (normalizePfx "FOO") pre =
        (pre', none)) :=
  ⟨by decide,
    c9_failure_leaves_suffix_unchanged [("FOO_VERBOSE", "yay")] "FOO"
      [flagUrl, flagVerbose]
      [{ flagUrl with usage := "url usage [FOO_URL]" }, flagVerbose]
      .invalidBoolFlagValue (by decide)⟩

/-- C10: a flag whose type tag is not bool never makes resolution fail, and
when its environment value is rejected by its own value setter the error is
discarded: the value stays at its default while the usage string is still
annotated with the name and raw value. -/
theorem c10_nonbool_never_fails (env : List (String × String)) (pfx : String)
    (f : Flag) (hb : f.typeTag ≠ "bool") :
    (∃ f', resolveFlag env pfx f = .ok f') ∧
    (∀ v, f.anns = [] →
      lookupEnv env (pfx ++ goDashToUnderscore (goToUpper f.name)) = some v →
      setOkFor f.typeTag v = false →
      resolveFlag env pfx f = .ok { f with usage := f.usage ++ " [" ++
        ((pfx ++ goDashToUnderscore (goToUpper f.name)) ++ " " ++ v) ++
        "]" }) := by
  constructor
  · by_cases hd : (f.anns.lookup envyDisable).isSome
    · exact ⟨f, resolveFlag_disabled env pfx f hd⟩
    · rw [Bool.not_eq_true] at hd
      cases hl : lookupEnv env (envNameOf pfx f) with
      | none =>
        exact ⟨{ f with usage := f.usage ++ " [" ++ envNameOf pfx f ++ "]" },
          by simp [resolveFlag, hd, hl]⟩
      | some v =>
        exact ⟨{ f with
          value := if setOkFor f.typeTag v then v else f.value,
          usage := f.usage ++ " [" ++ (envNameOf pfx f ++ " " ++ v) ++ "]" },
          by simp [resolveFlag, hd, hl, hb]⟩
  · intro v ha he hset
    rw [resolveFlag_env_set env pfx f v ha he (fun h => absurd h hb)]
    simp [hset]

/-- C10 witness: the integer count flag with COUNT=abc keeps its default 13
while the usage string records the raw value. -/
theorem c10_witness :
    flagCount.typeTag ≠ "bool" ∧
    flagCount.anns = [] ∧
    lookupEnv [("COUNT", "abc")]
      ("" ++ goDashToUnderscore (goToUpper flagCount.name)) = some "abc" ∧
    setOkFor flagCount.typeTag "abc" = false ∧
    resolveFlag [("COUNT", "abc")] "" flagCount =
      .ok { flagCount with usage := flagCount.usage ++ " [" ++
        (("" ++ goDashToUnderscore (goToUpper flagCount.name)) ++ " " ++
          "abc") ++ "]" } :=
  ⟨by decide, by decide, by decide, by decide,
    (c10_nonbool_never_fails [("COUNT", "abc")] "" flagCount (by decide)).2
      "abc" (by decide) (by decide) (by decide)⟩

end Envy
